import Mathlib

/-!
Verification of the webtransport-go core against its source.

Byte streams are modelled as `List Nat`, each element one octet.  A read
from such a stream consumes a prefix of the list; the remainder is what a
subsequent read would see.  A single call to an io.Reader style Read into a
buffer of `n` bytes returns the first `min n available` bytes; it fails only
when `n > 0` and no byte is available, and a zero-length read returns no
error, following the io.Reader contract.  Functions are translated from the
Go source of the repository (package `webtransport` and its `h3`
subpackage) together with the parts of the external `quic-go/quicvarint`,
`net/url`, `net/textproto` and `strconv` libraries that the repository
calls.  Go slices carry a nil / non-nil distinction, modelled with
`Option (List _)` where the code tests against nil.
-/

namespace WebTransport

/-- Varint append, translated from quicvarint.Append: the shortest QUIC
variable-length encoding of `i`.  Go panics for `i` at or above 2 to the 62;
the model returns `[]` there, and every theorem assumes the valid range. -/
def varintAppend (i : Nat) : List Nat :=
  if i ≤ 63 then [i]
  else if i ≤ 16383 then [i / 256 + 64, i % 256]
  else if i ≤ 1073741823 then
    [i / 16777216 + 128, i / 65536 % 256, i / 256 % 256, i % 256]
  else if i ≤ 4611686018427387903 then
    [i / 72057594037927936 + 192, i / 281474976710656 % 256,
     i / 1099511627776 % 256, i / 4294967296 % 256, i / 16777216 % 256,
     i / 65536 % 256, i / 256 % 256, i % 256]
  else []

/-- Varint length, translated from quicvarint.Len: the number of bytes of
the shortest encoding of `i` (1, 2, 4 or 8).  Go panics above the valid
range; the model returns 0 there. -/
def varintLen (i : Nat) : Nat :=
  if i ≤ 63 then 1
  else if i ≤ 16383 then 2
  else if i ≤ 1073741823 then 4
  else if i ≤ 4611686018427387903 then 8
  else 0

/-- Varint read, translated from quicvarint.Read: the two top bits of the
first byte select the total length (1, 2, 4 or 8 bytes); the remaining six
bits and all following bytes form the value, big-endian.  Any valid form is
accepted, not only the shortest.  `none` models an io error on truncated
input. -/
def varintRead (bs : List Nat) : Option (Nat × List Nat) :=
  match bs with
  | [] => none
  | b0 :: rest =>
    if b0 % 256 < 64 then some (b0 % 256, rest)
    else if b0 % 256 < 128 then
      match rest with
      | b2 :: r => some ((b0 % 256 % 64) * 256 + b2 % 256, r)
      | [] => none
    else if b0 % 256 < 192 then
      match rest with
      | b2 :: b3 :: b4 :: r =>
        some ((b0 % 256 % 64) * 16777216 + (b2 % 256) * 65536 +
          (b3 % 256) * 256 + b4 % 256, r)
      | _ => none
    else
      match rest with
      | b2 :: b3 :: b4 :: b5 :: b6 :: b7 :: b8 :: r =>
        some ((b0 % 256 % 64) * 72057594037927936 +
          (b2 % 256) * 281474976710656 + (b3 % 256) * 1099511627776 +
          (b4 % 256) * 4294967296 + (b5 % 256) * 16777216 +
          (b6 % 256) * 65536 + (b7 % 256) * 256 + b8 % 256, r)
      | _ => none

/-- Frame type constants from h3/frames.go. -/
def FRAME_DATA : Nat := 0x00

def FRAME_HEADERS : Nat := 0x01

def FRAME_SETTINGS : Nat := 0x04

def FRAME_WEBTRANSPORT_STREAM : Nat := 0x41

/-- Stream type constants from h3/streams.go. -/
def STREAM_CONTROL : Nat := 0x00

def STREAM_PUSH : Nat := 0x01

def STREAM_QPACK_ENCODER : Nat := 0x02

def STREAM_QPACK_DECODER : Nat := 0x03

def STREAM_WEBTRANSPORT_UNI_STREAM : Nat := 0x54

/-- Error kinds raised by the byte-level readers of the repository:
truncated input (an io error), the unknown-stream-type error of
StreamHeader.Read, and ErrWrongStreamType of ReceiveStream.Read. -/
inductive StreamErr where
  | incompleteInput
  | unknownStreamType
  | wrongStreamType
deriving DecidableEq

/-- HTTP/3 frame, translated from the Frame struct of h3/frames.go.  The Go
field Type is spelled `type` here because `Type` is reserved in Lean. -/
structure Frame where
  type : Nat
  sessionID : Nat
  length : Nat
  data : List Nat
deriving DecidableEq

/-- Frame.Read translated from h3/frames.go: read a type varint and a second
varint; for WEBTRANSPORT_STREAM the second varint is the session id and no
payload belongs to the frame; otherwise it is the payload length and one
Read call fills the payload buffer.  The receiver `f` supplies the fields
the Go method leaves untouched.  Per the io.Reader model above, the single
payload read returns the bytes available without error when any are, zero
bytes when the length is zero, and fails only on a positive length at end
of input; a short read leaves the rest of the buffer zero-filled, as Go
ignores the returned count. -/
def Frame.Read (f : Frame) (input : List Nat) : Except StreamErr (Frame × List Nat) :=
  match varintRead input with
  | none => .error .incompleteInput
  | some (t, r1) =>
    match varintRead r1 with
    | none => .error .incompleteInput
    | some (l, r2) =>
      if t = FRAME_WEBTRANSPORT_STREAM then
        .ok ({ f with type := t, length := 0, sessionID := l, data := [] }, r2)
      else if l = 0 then
        .ok ({ f with type := t, length := l, data := [] }, r2)
      else if r2 = [] then .error .incompleteInput
      else
        .ok
          ({ f with
              type := t
              length := l
              data := r2.take l ++ List.replicate (l - r2.length) 0 },
            r2.drop l)

/-- Frame.Write translated from h3/frames.go: the type varint, then the
session id varint for WEBTRANSPORT_STREAM and the length varint otherwise,
then the Data bytes (written unconditionally). -/
def Frame.Write (f : Frame) : List Nat :=
  varintAppend f.type ++
    (if f.type = FRAME_WEBTRANSPORT_STREAM then varintAppend f.sessionID
     else varintAppend f.length) ++
    f.data

/-- HTTP/3 unidirectional stream header, from h3/streams.go.  The Go field
Type is spelled `type` here because `Type` is reserved in Lean. -/
structure StreamHeader where
  type : Nat
  id : Nat
deriving DecidableEq

/-- StreamHeader.Read translated from h3/streams.go: one varint for the
type; control and qpack streams stop there, push and WebTransport
unidirectional streams carry a second varint (the id), and every other type
is the unknown-stream-type error.  A fresh StreamHeader receiver leaves the
id zero for one-varint types. -/
def StreamHeader.Read (input : List Nat) : Except StreamErr (StreamHeader × List Nat) :=
  match varintRead input with
  | none => .error .incompleteInput
  | some (t, rest) =>
    if t = STREAM_CONTROL ∨ t = STREAM_QPACK_ENCODER ∨ t = STREAM_QPACK_DECODER then
      .ok (⟨t, 0⟩, rest)
    else if t = STREAM_PUSH ∨ t = STREAM_WEBTRANSPORT_UNI_STREAM then
      match varintRead rest with
      | none => .error .incompleteInput
      | some (l, r2) => .ok (⟨t, l⟩, r2)
    else .error .unknownStreamType

/-- ReceiveStream wrapper state from stream.go (the embedded QUIC stream is
the byte source passed separately). -/
structure ReceiveStream where
  readHeaderBeforeData : Bool
  headerRead : Bool
  requestSessionID : Nat
deriving DecidableEq

/-- ReceiveStream.Read translated from stream.go, restricted to the header
latch that runs before the data read: before the first read it consumes a
StreamHeader and requires type STREAM_WEBTRANSPORT_UNI_STREAM, returning
ErrWrongStreamType otherwise; then it stores the id and marks the header
read.  The result is the updated wrapper and the bytes the delegated
underlying read then sees. -/
def ReceiveStream.Read (s : ReceiveStream) (input : List Nat) :
    Except StreamErr (ReceiveStream × List Nat) :=
  if s.readHeaderBeforeData && !s.headerRead then
    match StreamHeader.Read input with
    | .error e => .error e
    | .ok (h, rest) =>
      if h.type ≠ STREAM_WEBTRANSPORT_UNI_STREAM then .error .wrongStreamType
      else .ok ({ s with headerRead := true, requestSessionID := h.id }, rest)
  else .ok (s, input)

/-- Session state needed by the modelled methods: the id of the CONNECT
request stream (Go reads it as s.StreamID() on the embedded quic.Stream). -/
structure Session where
  sessionID : Nat
deriving DecidableEq

/-- Session.SendDatagram translated from the datagram module: the bytes
handed to the QUIC datagram send are the varint of the quarter stream id
(StreamID divided by four) followed by the message. -/
def Session.SendDatagram (s : Session) (msg : List Nat) : List Nat :=
  varintAppend (s.sessionID / 4) ++ msg

/-- Session.ReceiveDatagram translated from the datagram module, restricted
to the byte handling after a datagram arrives: read the quarter stream id
varint from the start, then return the datagram starting at offset
quicvarint.Len of the value read (not at the number of bytes consumed). -/
def Session.ReceiveDatagram (msg : List Nat) : Option (List Nat) :=
  match varintRead msg with
  | none => none
  | some (quarterStreamId, _) => some (msg.drop (varintLen quarterStreamId))

/-- Session.AcceptStream translated from session.go, restricted to the byte
handling on the accepted bidirectional stream: read one frame into a fresh
Frame and return the stream at its new position together with the frame.
No check is made on the frame type or on its session id. -/
def Session.AcceptStream (s : Session) (input : List Nat) :
    Except StreamErr (Frame × List Nat) :=
  Frame.Read ⟨0, 0, 0, []⟩ input

/-- Error kinds of SettingsMap.FromFrame: oversized frame, truncated pair,
duplicate setting id. -/
inductive SettingsError where
  | tooLarge
  | incompleteInput
  | duplicateSetting (id : Nat)
deriving DecidableEq

/-- A settings map, modelled as an association list with unique keys; the
list order stands for one iteration order of the Go map. -/
abbrev SettingsMap := List (Nat × Nat)

/-- Presence test of a key, modelling the Go comma-ok map index. -/
def containsKey : SettingsMap → Nat → Bool
  | [], _ => false
  | (k, _) :: rest, id => k == id || containsKey rest id

/-- Decode loop of SettingsMap.FromFrame: while bytes remain, read an id
varint and a value varint; a repeated id is the duplicate-setting error,
otherwise the pair is stored into the map, which grows in place. -/
def settingsLoop (s : SettingsMap) (b : List Nat) : SettingsMap × Option SettingsError :=
  if b = [] then (s, none)
  else
    match h1 : varintRead b with
    | none => (s, some .incompleteInput)
    | some (id, r1) =>
      match h2 : varintRead r1 with
      | none => (s, some .incompleteInput)
      | some (val, r2) =>
        if containsKey s id then (s, some (.duplicateSetting id))
        else settingsLoop (s ++ [(id, val)]) r2
termination_by b.length
decreasing_by
  have shrink : ∀ (bs r : List Nat) (v : Nat),
      varintRead bs = some (v, r) → r.length < bs.length := by
    intro bs r v h
    rcases bs with _ | ⟨b0, rest⟩
    · simp [varintRead] at h
    · simp only [varintRead] at h
      split_ifs at h with hc1 hc2 hc3
      · simp only [Option.some.injEq, Prod.mk.injEq] at h
        obtain ⟨-, rfl⟩ := h
        simp
      · rcases rest with _ | ⟨b2, r2⟩
        · simp at h
        · simp only [Option.some.injEq, Prod.mk.injEq] at h
          obtain ⟨-, rfl⟩ := h
          simp
          omega
      · rcases rest with _ | ⟨b2, _ | ⟨b3, _ | ⟨b4, r4⟩⟩⟩
        · simp at h
        · simp at h
        · simp at h
        · simp only [Option.some.injEq, Prod.mk.injEq] at h
          obtain ⟨-, rfl⟩ := h
          simp
          omega
      · rcases rest with _ | ⟨b2, _ | ⟨b3, _ | ⟨b4, _ | ⟨b5, _ | ⟨b6, _ | ⟨b7, _ | ⟨b8, r8⟩⟩⟩⟩⟩⟩⟩
        · simp at h
        · simp at h
        · simp at h
        · simp at h
        · simp at h
        · simp at h
        · simp at h
        · simp only [Option.some.injEq, Prod.mk.injEq] at h
          obtain ⟨-, rfl⟩ := h
          simp
          omega
  exact Nat.lt_trans (shrink r1 r2 val h2) (shrink b r1 id h1)

/-- SettingsMap.FromFrame translated from h3/settings.go: refuse a frame
whose Length field exceeds 8 KiB, then run the decode loop over the Data
bytes on the receiver map.  The result is the receiver as mutated by the
call together with the returned error. -/
def SettingsMap.FromFrame (s : SettingsMap) (f : Frame) : SettingsMap × Option SettingsError :=
  if f.length > 8 * 1024 then (s, some .tooLarge)
  else settingsLoop s f.data

/-- Serialization of the settings pairs, in map iteration order: the id
varint then the value varint of each pair. -/
def encodePairs : SettingsMap → List Nat
  | [] => []
  | (id, val) :: rest => varintAppend id ++ varintAppend val ++ encodePairs rest

/-- Payload length computed by SettingsMap.ToFrame: the sum of the varint
lengths of every id and value. -/
def settingsEncodedLen : SettingsMap → Nat
  | [] => 0
  | (id, val) :: rest => varintLen id + varintLen val + settingsEncodedLen rest

/-- SettingsMap.ToFrame translated from h3/settings.go: a SETTINGS frame
whose Length is the summed varint lengths and whose Data serializes every
pair. -/
def SettingsMap.ToFrame (s : SettingsMap) : Frame :=
  ⟨FRAME_SETTINGS, 0, settingsEncodedLen s, encodePairs s⟩

/-- Response writer state from the h3 response writer module: the status
passed to WriteHeader and the header-written latch.  The buffered stream and
the header map do not influence which frames are emitted and are not
tracked. -/
structure ResponseWriter where
  status : Int
  headerWritten : Bool
deriving DecidableEq

/-- A frame emission on the response path: a HEADERS frame carrying a
status, or a DATA frame carrying bytes. -/
inductive Emitted where
  | headersFrame (status : Int)
  | dataFrame (p : List Nat)
deriving DecidableEq

/-- bodyAllowedForStatus copied by the source from http2: informational,
204 and 304 statuses carry no body. -/
def bodyAllowedForStatus (status : Int) : Bool :=
  if 100 ≤ status ∧ status ≤ 199 then false
  else if status = 204 then false
  else if status = 304 then false
  else true

/-- ResponseWriter.WriteHeader translated from the response writer module:
a no-op once the latch is set; otherwise the status is recorded, the latch
is set exactly when the status is outside 100..199, and one HEADERS frame is
emitted.  The QPACK payload bytes do not influence the claims and are
abstracted to the status carried by the frame. -/
def ResponseWriter.WriteHeader (w : ResponseWriter) (status : Int) :
    ResponseWriter × List Emitted :=
  if w.headerWritten then (w, [])
  else ({ status := status, headerWritten := decide (status < 100 ∨ 200 ≤ status) },
    [.headersFrame status])

/-- ResponseWriter.Write translated from the response writer module: when no
header has been written, WriteHeader 200 runs first; then, unless the
recorded status forbids a body (the call then returns ErrBodyNotAllowed and
emits nothing), one DATA frame is emitted. -/
def ResponseWriter.Write (w : ResponseWriter) (p : List Nat) :
    ResponseWriter × List Emitted :=
  let r := if w.headerWritten then (w, []) else w.WriteHeader 200
  if bodyAllowedForStatus r.1.status then (r.1, r.2 ++ [.dataFrame p])
  else (r.1, r.2)

/-- An operation of the handler on the response writer. -/
inductive RWOp where
  | writeHeader (status : Int)
  | write (p : List Nat)
deriving DecidableEq

/-- Run a sequence of handler operations, collecting every emitted frame in
order. -/
def ResponseWriter.runOps (w : ResponseWriter) : List RWOp → ResponseWriter × List Emitted
  | [] => (w, [])
  | .writeHeader st :: ops =>
    let r := w.WriteHeader st
    let rr := r.1.runOps ops
    (rr.1, r.2 ++ rr.2)
  | .write p :: ops =>
    let r := w.Write p
    let rr := r.1.runOps ops
    (rr.1, r.2 ++ rr.2)

/-- Whether an emission is a DATA frame. -/
def Emitted.isData : Emitted → Bool
  | .dataFrame _ => true
  | _ => false

/-- Whether an emission is a HEADERS frame. -/
def Emitted.isHeaders : Emitted → Bool
  | .headersFrame _ => true
  | _ => false

/-- Whether an emission is a HEADERS frame with an informational (1xx)
status, which does not set the latch. -/
def Emitted.isInfoHeaders : Emitted → Bool
  | .headersFrame st => decide (100 ≤ st ∧ st ≤ 199)
  | _ => false

/-- The number of HEADERS frames emitted before the first DATA frame. -/
def headersBeforeFirstData (es : List Emitted) : Nat :=
  ((es.takeWhile fun e => !e.isData).filter Emitted.isHeaders).length

/-- A decoded QPACK header field, as in the external qpack library. -/
structure HeaderField where
  name : String
  value : String
deriving DecidableEq

/-- IsPseudo of the qpack library: the name starts with a colon. -/
def HeaderField.IsPseudo (h : HeaderField) : Bool :=
  match h.name.toList with
  | ':' :: _ => true
  | _ => false

/-- Canonicalization pass over the characters of a header key: uppercase at
the start and after a hyphen, lowercase elsewhere. -/
def canonicalChars : List Char → Bool → List Char
  | [], _ => []
  | c :: rest, up =>
    (if up then c.toUpper else c.toLower) :: canonicalChars rest (c == '-')

/-- Model of the external net/textproto CanonicalMIMEHeaderKey used by Go
http.Header.Add, restricted to keys of letters, digits and hyphens (keys
with other characters are returned unchanged, as Go does for keys outside
the token alphabet). -/
def CanonicalMIMEHeaderKey (s : String) : String :=
  if s.toList.all fun c => c.isAlphanum || c == '-' then
    ⟨canonicalChars s.toList true⟩
  else s

/-- A parsed URL, with the fields of net/url URL that the repository
reads. -/
structure URL where
  Scheme : String
  Host : String
  Path : String
deriving DecidableEq

/-- Split the characters of a URL at the first scheme separator, yielding
the scheme characters and everything after the separator; fails when no
separator occurs. -/
def splitScheme : List Char → Option (List Char × List Char)
  | [] => none
  | ':' :: '/' :: '/' :: rest => some ([], rest)
  | c :: rest =>
    match splitScheme rest with
    | none => none
    | some (sch, tail) => some (c :: sch, tail)

/-- Split the characters following the scheme separator into the host (up
to the first slash) and the remaining path, which keeps its leading
slash. -/
def splitHost : List Char → List Char × List Char
  | [] => ([], [])
  | '/' :: rest => ([], '/' :: rest)
  | c :: rest => ((splitHost rest).1.cons c, (splitHost rest).2)

/-- Model of the external net/url ParseRequestURI for the inputs the
repository builds: an absolute URL of the form scheme://host/path, whose
host runs to the first slash after the separator, or a rooted path.  The
empty string and a bare relative path are errors, as in Go; escape-sequence
and control-character errors do not arise on these inputs. -/
def ParseRequestURI (s : String) : Option URL :=
  if s = "" then none
  else
    match splitScheme s.toList with
    | some (sch, rest) =>
      some ⟨⟨sch⟩, ⟨(splitHost rest).1⟩, ⟨(splitHost rest).2⟩⟩
    | none =>
      match s.toList with
      | '/' :: _ => some ⟨"", "", s⟩
      | _ => none

/-- Model of the external net/url Parse for origin-header strings: an
absolute URL yields its host; any other string parses as an opaque or
relative reference with an empty host, since Go url.Parse fails only on
control characters and malformed escapes, which do not arise here. -/
def urlParse (s : String) : Option URL :=
  match splitScheme s.toList with
  | some (sch, rest) =>
    some ⟨⟨sch⟩, ⟨(splitHost rest).1⟩, ⟨(splitHost rest).2⟩⟩
  | none => some ⟨"", "", s⟩

/-- Model of the external strconv.ParseInt with base 10 and 64-bit range:
an optional sign, then decimal digits, within the int64 bounds. -/
def ParseInt64 (s : String) : Option Int :=
  let signed : Bool × List Char :=
    match s.toList with
    | '-' :: rest => (true, rest)
    | '+' :: rest => (false, rest)
    | rest => (false, rest)
  if signed.2 = [] then none
  else if signed.2.all Char.isDigit then
    let n : Nat := signed.2.foldl (fun a c => a * 10 + (c.toNat - 48)) 0
    let v : Int := if signed.1 then -(n : Int) else (n : Int)
    if -9223372036854775808 ≤ v ∧ v ≤ 9223372036854775807 then some v else none
  else none

/-- The local variables RequestFromHeaders accumulates while walking the
header list. -/
structure ParsedPseudo where
  path : String
  authority : String
  method : String
  protocol : String
  contentLengthStr : String
  httpHeaders : List (String × String)
deriving DecidableEq

/-- The header-walking loop of RequestFromHeaders: pseudo-headers and
content-length land in dedicated variables (a later occurrence overwrites),
every other non-pseudo header is added to the HTTP headers under its
canonical key. -/
def parseHeaderLoop : List HeaderField → ParsedPseudo → ParsedPseudo
  | [], acc => acc
  | h :: rest, acc =>
    parseHeaderLoop rest <|
      if h.name = ":path" then { acc with path := h.value }
      else if h.name = ":method" then { acc with method := h.value }
      else if h.name = ":authority" then { acc with authority := h.value }
      else if h.name = ":protocol" then { acc with protocol := h.value }
      else if h.name = "content-length" then { acc with contentLengthStr := h.value }
      else if h.IsPseudo then acc
      else { acc with
        httpHeaders := acc.httpHeaders ++ [(CanonicalMIMEHeaderKey h.name, h.value)] }

/-- Error kinds of RequestFromHeaders: the mandatory-pseudo-header error,
a URL parse failure, a malformed content-length. -/
inductive RequestError where
  | pathAuthorityMethodEmpty
  | urlParseError
  | malformedContentLength
deriving DecidableEq

/-- The fields of the returned http.Request that the decoding determines
(the fixed protocol markers, absent body and empty TLS state are not
repeated here). -/
structure Request where
  method : String
  url : URL
  header : List (String × String)
  contentLength : Int
  host : String
  requestURI : String
deriving DecidableEq

/-- RequestFromHeaders translated from h3/streams.go: walk the header list;
join multiple Cookie values with a semicolon and space; for CONNECT parse
https scheme, authority and path as the URL; otherwise require :path,
:authority and :method non-empty and parse the path; then parse any
content-length and default the protocol to h3.  The result pairs the
request with the protocol value. -/
def RequestFromHeaders (headers : List HeaderField) :
    Except RequestError (Request × String) :=
  let ph := parseHeaderLoop headers ⟨"", "", "", "", "", []⟩
  let cookies := (ph.httpHeaders.filter fun kv => kv.1 = "Cookie").map Prod.snd
  let httpHeaders :=
    if cookies.length > 0 then
      (ph.httpHeaders.filter fun kv => kv.1 ≠ "Cookie") ++
        [("Cookie", String.intercalate "; " cookies)]
    else ph.httpHeaders
  let urlResult : Except RequestError URL :=
    if ph.method = "CONNECT" then
      match ParseRequestURI ("https://" ++ ph.authority ++ ph.path) with
      | none => .error .urlParseError
      | some u => .ok u
    else
      if ph.path.length = 0 ∨ ph.authority.length = 0 ∨ ph.method.length = 0 then
        .error .pathAuthorityMethodEmpty
      else
        match ParseRequestURI ph.path with
        | none => .error .urlParseError
        | some u => .ok u
  match urlResult with
  | .error e => .error e
  | .ok u =>
    let clResult : Except RequestError Int :=
      if ph.contentLengthStr.length > 0 then
        match ParseInt64 ph.contentLengthStr with
        | none => .error .malformedContentLength
        | some v => .ok v
      else .ok 0
    match clResult with
    | .error e => .error e
    | .ok contentLength =>
      let protocol := if ph.protocol.length = 0 then "h3" else ph.protocol
      .ok (⟨ph.method, u, httpHeaders, contentLength, ph.authority, ph.path⟩, protocol)

/-- The Server configuration fields that origin validation reads.  The Go
slice is nilable, hence the Option: `none` is a nil slice, `some []` an
allocated empty one. -/
structure Server where
  AllowedOrigins : Option (List String)

/-- Server.validateOrigin translated from h3/streams.go: a nil
AllowedOrigins slice allows everything; otherwise the origin URL is parsed
(reject on failure) and its host must be contained in the slice. -/
def Server.validateOrigin (s : Server) (origin : String) : Bool :=
  match s.AllowedOrigins with
  | none => true
  | some allowedOrigins =>
    match urlParse origin with
    | none => false
    | some u => allowedOrigins.contains u.Host

set_option maxHeartbeats 1600000 in
theorem varintRead_varintAppend (i : Nat) (rest : List Nat)
    (h : i < 4611686018427387904) :
    varintRead (varintAppend i ++ rest) = some (i, rest) := by
  unfold varintAppend
  split_ifs with h1 h2 h3 h4
  · simp only [List.cons_append, List.nil_append, varintRead]
    rw [if_pos (by omega)]
    simp only [Option.some.injEq, Prod.mk.injEq, and_true]
    omega
  · simp only [List.cons_append, List.nil_append, varintRead]
    rw [if_neg (by omega), if_pos (by omega)]
    simp only [Option.some.injEq, Prod.mk.injEq, and_true]
    omega
  · simp only [List.cons_append, List.nil_append, varintRead]
    rw [if_neg (by omega), if_neg (by omega), if_pos (by omega)]
    simp only [Option.some.injEq, Prod.mk.injEq, and_true]
    omega
  · simp only [List.cons_append, List.nil_append, varintRead]
    rw [if_neg (by omega), if_neg (by omega), if_neg (by omega)]
    simp only [Option.some.injEq, Prod.mk.injEq, and_true]
    omega
  · omega

theorem varintAppend_length (i : Nat) (h : i < 4611686018427387904) :
    (varintAppend i).length = varintLen i := by
  unfold varintAppend varintLen
  split_ifs <;> simp <;> omega

theorem Frame_Read_nonWT (g : Frame) (t l : Nat) (payload rest : List Nat)
    (ht : t < 4611686018427387904) (hl : l < 4611686018427387904)
    (hne : t ≠ FRAME_WEBTRANSPORT_STREAM) (hlen : payload.length = l) :
    Frame.Read g (varintAppend t ++ (varintAppend l ++ (payload ++ rest))) =
      .ok ({ g with type := t, length := l, data := payload }, rest) := by
  unfold Frame.Read
  simp only [varintRead_varintAppend t _ ht, varintRead_varintAppend l _ hl]
  simp only [if_neg hne]
  subst hlen
  by_cases h0 : payload.length = 0
  · have hp : payload = [] := List.eq_nil_of_length_eq_zero h0
    subst hp
    simp
  · rw [if_neg h0]
    have hpne : payload ≠ [] := by
      intro hc
      rw [hc] at h0
      exact h0 rfl
    have hne2 : payload ++ rest ≠ [] := by
      intro hc
      exact hpne (List.append_eq_nil.mp hc).1
    rw [if_neg hne2]
    have hz : payload.length - (payload ++ rest).length = 0 := by
      rw [List.length_append]
      omega
    simp [List.take_left, List.drop_left, hz]

theorem Frame_Read_WT (g : Frame) (sid : Nat) (rest : List Nat)
    (hs : sid < 4611686018427387904) :
    Frame.Read g (varintAppend FRAME_WEBTRANSPORT_STREAM ++ (varintAppend sid ++ rest)) =
      .ok ({ g with
              type := FRAME_WEBTRANSPORT_STREAM
              sessionID := sid
              length := 0
              data := [] }, rest) := by
  unfold Frame.Read
  simp only [varintRead_varintAppend FRAME_WEBTRANSPORT_STREAM _ (by decide),
    varintRead_varintAppend sid _ hs]
  simp

theorem StreamHeader_Read_no_wrong (input : List Nat) :
    StreamHeader.Read input ≠ .error .wrongStreamType := by
  unfold StreamHeader.Read
  cases h : varintRead input with
  | none => simp
  | some p =>
    obtain ⟨t, rest⟩ := p
    simp only
    split_ifs
    · simp
    · cases h2 : varintRead rest with
      | none => simp
      | some q =>
        obtain ⟨l, r2⟩ := q
        simp
    · simp

theorem varintAppend_ne_nil (i : Nat) (h : i < 4611686018427387904) :
    varintAppend i ≠ [] := by
  unfold varintAppend
  split_ifs <;> simp
  omega

theorem settingsLoop_emptyInput (s : SettingsMap) : settingsLoop s [] = (s, none) := by
  rw [settingsLoop]
  simp

theorem settingsLoop_pair (s : SettingsMap) (id val : Nat) (more : List Nat)
    (hid : id < 4611686018427387904) (hval : val < 4611686018427387904) :
    settingsLoop s (varintAppend id ++ (varintAppend val ++ more)) =
      if containsKey s id then (s, some (.duplicateSetting id))
      else settingsLoop (s ++ [(id, val)]) more := by
  rw [settingsLoop]
  rw [if_neg (fun hc => varintAppend_ne_nil id hid (List.append_eq_nil.mp hc).1)]
  split
  · next h1 =>
    rw [varintRead_varintAppend id _ hid] at h1
    simp at h1
  · next id2 r1 h1 =>
    rw [varintRead_varintAppend id _ hid] at h1
    simp only [Option.some.injEq, Prod.mk.injEq] at h1
    obtain ⟨rfl, rfl⟩ := h1
    split
    · next h2 =>
      rw [varintRead_varintAppend val _ hval] at h2
      simp at h2
    · next val2 r2 h2 =>
      rw [varintRead_varintAppend val _ hval] at h2
      simp only [Option.some.injEq, Prod.mk.injEq] at h2
      obtain ⟨rfl, rfl⟩ := h2
      rfl

theorem containsKey_append (s t : SettingsMap) (k : Nat) :
    containsKey (s ++ t) k = (containsKey s k || containsKey t k) := by
  induction s with
  | nil => simp [containsKey]
  | cons p rest ih =>
    obtain ⟨a, b⟩ := p
    simp [containsKey, ih, Bool.or_assoc]

theorem settingsLoop_encodePairs (m : SettingsMap) : ∀ s : SettingsMap,
    (∀ p ∈ m, p.1 < 4611686018427387904 ∧ p.2 < 4611686018427387904) →
    (∀ p ∈ m, containsKey s p.1 = false) →
    (m.map Prod.fst).Nodup →
    settingsLoop s (encodePairs m) = (s ++ m, none) := by
  induction m with
  | nil =>
    intro s _ _ _
    simp [encodePairs, settingsLoop_emptyInput]
  | cons p rest ih =>
    intro s hr hd hn
    obtain ⟨id, val⟩ := p
    rw [List.map_cons, List.nodup_cons] at hn
    have hidr := hr (id, val) (by simp)
    simp only [encodePairs, List.append_assoc]
    rw [settingsLoop_pair s id val _ hidr.1 hidr.2]
    rw [hd (id, val) (by simp)]
    simp only [Bool.false_eq_true, if_false]
    rw [ih (s ++ [(id, val)])]
    · simp
    · intro q hq
      exact hr q (by simp [hq])
    · intro q hq
      rw [containsKey_append]
      have h1 : containsKey s q.1 = false := hd q (by simp [hq])
      have h2 : containsKey [(id, val)] q.1 = false := by
        simp only [containsKey, Bool.or_false]
        have : id ≠ q.1 := by
          intro hc
          have hmem : q.1 ∈ List.map Prod.fst rest := List.mem_map_of_mem Prod.fst hq
          exact hn.1 (by rw [hc]; exact hmem)
        simpa using this
      rw [h1, h2]
      rfl
    · exact hn.2

theorem settingsLoop_dup (good : SettingsMap) :
    ∀ (s : SettingsMap) (id val : Nat) (more : List Nat),
    (∀ p ∈ good, p.1 < 4611686018427387904 ∧ p.2 < 4611686018427387904) →
    (∀ p ∈ good, containsKey s p.1 = false) →
    (good.map Prod.fst).Nodup →
    id < 4611686018427387904 → val < 4611686018427387904 →
    (containsKey s id = true ∨ id ∈ good.map Prod.fst) →
    settingsLoop s (encodePairs good ++ (varintAppend id ++ (varintAppend val ++ more))) =
      (s ++ good, some (.duplicateSetting id)) := by
  induction good with
  | nil =>
    intro s id val more _ _ _ hid hval hdup
    have hk : containsKey s id = true := by
      rcases hdup with h | h
      · exact h
      · simp at h
    simp only [encodePairs, List.nil_append]
    rw [settingsLoop_pair s id val more hid hval, hk]
    simp
  | cons p rest ih =>
    intro s id val more hr hd hn hid hval hdup
    obtain ⟨k, w⟩ := p
    rw [List.map_cons, List.nodup_cons] at hn
    have hkr := hr (k, w) (by simp)
    simp only [encodePairs, List.append_assoc]
    rw [settingsLoop_pair s k w _ hkr.1 hkr.2]
    rw [hd (k, w) (by simp)]
    simp only [Bool.false_eq_true, if_false]
    rw [ih (s ++ [(k, w)]) id val more]
    · simp
    · intro q hq
      exact hr q (by simp [hq])
    · intro q hq
      rw [containsKey_append]
      have h1 : containsKey s q.1 = false := hd q (by simp [hq])
      have h2 : containsKey [(k, w)] q.1 = false := by
        simp only [containsKey, Bool.or_false]
        have : k ≠ q.1 := by
          intro hc
          have hmem : q.1 ∈ List.map Prod.fst rest := List.mem_map_of_mem Prod.fst hq
          exact hn.1 (by rw [hc]; exact hmem)
        simpa using this
      rw [h1, h2]
      rfl
    · exact hn.2
    · exact hid
    · exact hval
    · rcases hdup with h | h
      · left
        rw [containsKey_append, h]
        rfl
      · rcases (by simpa using h : id = k ∨ id ∈ List.map Prod.fst rest) with h | h
        · left
          rw [containsKey_append]
          have : containsKey [(k, w)] id = true := by
            simp [containsKey, h.symm]
          rw [this]
          simp
        · right
          exact h

theorem runOps_latched (ops : List RWOp) : ∀ w : ResponseWriter,
    w.headerWritten = true → ∀ e ∈ (w.runOps ops).2, e.isData = true := by
  induction ops with
  | nil =>
    intro w hw e he
    simp [ResponseWriter.runOps] at he
  | cons op rest ih =>
    intro w hw e he
    cases op with
    | writeHeader st =>
      simp only [ResponseWriter.runOps] at he
      rw [ResponseWriter.WriteHeader, if_pos hw] at he
      exact ih w hw e (by simpa using he)
    | write p =>
      simp only [ResponseWriter.runOps] at he
      rw [ResponseWriter.Write, if_pos hw] at he
      cases hb : bodyAllowedForStatus w.status with
      | true =>
        rw [if_pos hb] at he
        simp only [List.append_assoc, List.nil_append, List.cons_append,
          List.mem_append, List.mem_cons] at he
        rcases he with rfl | he
        · rfl
        · exact ih w hw e (by simpa using he)
      | false =>
        rw [if_neg (by simp [hb])] at he
        exact ih w hw e (by simpa using he)

theorem runOps_trace (ops : List RWOp) : ∀ w : ResponseWriter,
    w.headerWritten = false →
    ∃ a b, (w.runOps ops).2 = a ++ b ∧ (∀ e ∈ a, e.isInfoHeaders = true) ∧
      (b = [] ∨ ∃ st tail, b = .headersFrame st :: tail ∧ (st < 100 ∨ 200 ≤ st) ∧
        ∀ e ∈ tail, e.isData = true) := by
  induction ops with
  | nil =>
    intro w hw
    exact ⟨[], [], by simp [ResponseWriter.runOps], by simp, Or.inl rfl⟩
  | cons op rest ih =>
    intro w hw
    cases op with
    | writeHeader st =>
      by_cases hst : st < 100 ∨ 200 ≤ st
      · refine ⟨[], .headersFrame st :: ((⟨st, true⟩ : ResponseWriter).runOps rest).2,
          ?_, by simp, ?_⟩
        · simp [ResponseWriter.runOps, ResponseWriter.WriteHeader, hw, hst]
        · right
          exact ⟨st, _, rfl, hst, runOps_latched rest ⟨st, true⟩ rfl⟩
      · obtain ⟨a, b, heq, ha, hb⟩ := ih ⟨st, false⟩ rfl
        refine ⟨.headersFrame st :: a, b, ?_, ?_, hb⟩
        · have hdec : decide (st < 100 ∨ 200 ≤ st) = false := by
            simpa using hst
          simp [ResponseWriter.runOps, ResponseWriter.WriteHeader, hw, hdec, heq]
        · intro e he
          rcases List.mem_cons.mp he with rfl | he2
          · simp only [Emitted.isInfoHeaders, decide_eq_true_eq]
            omega
          · exact ha e he2
    | write p =>
      refine ⟨[], .headersFrame 200 :: .dataFrame p ::
        ((⟨200, true⟩ : ResponseWriter).runOps rest).2, ?_, by simp, ?_⟩
      · have hba : bodyAllowedForStatus 200 = true := by decide
        have hdec : decide ((200 : Int) < 100 ∨ 200 ≤ 200) = true := by decide
        simp [ResponseWriter.runOps, ResponseWriter.Write, ResponseWriter.WriteHeader,
          hw, hdec, hba]
      · right
        refine ⟨200, _, rfl, by omega, ?_⟩
        intro e he
        rcases List.mem_cons.mp he with rfl | he2
        · rfl
        · exact runOps_latched rest ⟨200, true⟩ rfl e he2

/-- C1: evaluation of validateOrigin at the failing input.  A server whose
AllowedOrigins slice is allocated but empty rejects every origin, here
https://example.com, while a nil slice allows it; the code checks the slice
against nil although its own documentation promises that an empty slice
allows all origins. -/
theorem validateOrigin_empty_slice_rejects :
    Server.validateOrigin ⟨some []⟩ "https://example.com" = false ∧
    Server.validateOrigin ⟨none⟩ "https://example.com" = true := by
  refine ⟨?_, rfl⟩
  unfold Server.validateOrigin
  cases urlParse "https://example.com" <;> rfl

/-- C2 (amended): for every session and payload, SendDatagram hands QUIC
exactly the shortest varint of sessionID / 4 followed by the payload, and
ReceiveDatagram recovers exactly the payload from a datagram carrying the
shortest-form prefix.  (For a longer valid varint form the recovery fails,
see the counterexample.) -/
theorem SendDatagram_ReceiveDatagram_roundtrip (s : Session) (p : List Nat)
    (h : s.sessionID < 4611686018427387904) :
    s.SendDatagram p = varintAppend (s.sessionID / 4) ++ p ∧
    Session.ReceiveDatagram (s.SendDatagram p) = some p := by
  refine ⟨rfl, ?_⟩
  unfold Session.ReceiveDatagram Session.SendDatagram
  have hq : s.sessionID / 4 < 4611686018427387904 := by omega
  simp only [varintRead_varintAppend _ _ hq]
  rw [← varintAppend_length _ hq, List.drop_left]

/-- C2 witness: with session id 4 the wire bytes are 01 DE AD BE EF and the
payload comes back intact. -/
theorem SendDatagram_ReceiveDatagram_roundtrip_witness :
    Session.SendDatagram ⟨4⟩ [222, 173, 190, 239] =
      varintAppend 1 ++ [222, 173, 190, 239] ∧
    Session.ReceiveDatagram (Session.SendDatagram ⟨4⟩ [222, 173, 190, 239]) =
      some [222, 173, 190, 239] :=
  SendDatagram_ReceiveDatagram_roundtrip ⟨4⟩ [222, 173, 190, 239] (by decide)

/-- C2 counterexample: the bytes 40 01 form a valid two-byte varint
encoding of 1 (the quarter stream id of session 4), yet ReceiveDatagram on
40 01 DE returns 01 DE instead of the payload DE, because it drops only the
shortest-form length of the decoded value. -/
theorem ReceiveDatagram_nonshortest_counterexample :
    varintRead [0x40, 1, 222] = some (1, [222]) ∧
    Session.ReceiveDatagram [0x40, 1, 222] = some [1, 222] ∧
    ([1, 222] : List Nat) ≠ [222] := by
  decide

/-- C3 (amended): on a fresh inbound unidirectional wrapper, the first Read
fails with ErrWrongStreamType exactly when the stream header parses
successfully and its type differs from WEBTRANSPORT_UNI_STREAM; when the
header itself fails to parse (truncated input or an unknown type) that
error is returned instead. -/
theorem ReceiveStream_Read_wrongStreamType_iff (s : ReceiveStream) (input : List Nat)
    (h1 : s.readHeaderBeforeData = true) (h2 : s.headerRead = false) :
    s.Read input = .error .wrongStreamType ↔
      (∃ hd rest, StreamHeader.Read input = .ok (hd, rest) ∧
        hd.type ≠ STREAM_WEBTRANSPORT_UNI_STREAM) := by
  have hcond : (s.readHeaderBeforeData && !s.headerRead) = true := by
    rw [h1, h2]
    rfl
  unfold ReceiveStream.Read
  rw [if_pos hcond]
  cases hr : StreamHeader.Read input with
  | error e =>
    simp only
    constructor
    · intro hc
      injection hc with he
      exact absurd (he ▸ hr) (StreamHeader_Read_no_wrong input)
    · rintro ⟨hd, rest, hok, -⟩
      simp at hok
  | ok pr =>
    obtain ⟨hd, rest⟩ := pr
    simp only
    by_cases ht : hd.type = STREAM_WEBTRANSPORT_UNI_STREAM
    · rw [if_neg (fun hc => hc ht)]
      constructor
      · intro hc
        simp at hc
      · rintro ⟨hd2, rest2, hok, hne⟩
        simp only [Except.ok.injEq, Prod.mk.injEq] at hok
        exact absurd (hok.1 ▸ ht) hne
    · rw [if_pos ht]
      exact ⟨fun _ => ⟨hd, rest, rfl, ht⟩, fun _ => rfl⟩

/-- C3 witness: a control-typed header (byte 00) parses with type 0, so the
first read on a fresh wrapper fails with ErrWrongStreamType. -/
theorem ReceiveStream_Read_wrongStreamType_iff_witness :
    ReceiveStream.Read ⟨true, false, 0⟩ [0] = .error .wrongStreamType :=
  (ReceiveStream_Read_wrongStreamType_iff ⟨true, false, 0⟩ [0] rfl rfl).mpr
    ⟨⟨0, 0⟩, [], rfl, by decide⟩

/-- C3 counterexample: the stream whose leading varint is 5 has a type
other than 0x54, yet the first read fails with the unknown-stream-type
error of StreamHeader.Read, not with ErrWrongStreamType, refuting the
claimed equivalence. -/
theorem ReceiveStream_Read_unknown_type_counterexample :
    varintRead [5] = some (5, []) ∧ (5 : Nat) ≠ STREAM_WEBTRANSPORT_UNI_STREAM ∧
    ReceiveStream.Read ⟨true, false, 0⟩ [5] = .error .unknownStreamType ∧
    StreamErr.unknownStreamType ≠ StreamErr.wrongStreamType :=
  ⟨by decide, by decide, rfl, by decide⟩

/-- C4 (amended): for every decoded header list whose method is not
CONNECT, if any of :path, :authority or :method is empty then
RequestFromHeaders fails with the PathAuthorityMethodEmpty error; for
CONNECT the emptiness check is skipped (see the counterexample). -/
theorem RequestFromHeaders_empty_pseudo (headers : List HeaderField)
    (hm : (parseHeaderLoop headers ⟨"", "", "", "", "", []⟩).method ≠ "CONNECT")
    (he : (parseHeaderLoop headers ⟨"", "", "", "", "", []⟩).path = "" ∨
      (parseHeaderLoop headers ⟨"", "", "", "", "", []⟩).authority = "" ∨
      (parseHeaderLoop headers ⟨"", "", "", "", "", []⟩).method = "") :
    RequestFromHeaders headers = .error .pathAuthorityMethodEmpty := by
  have hcond : (parseHeaderLoop headers ⟨"", "", "", "", "", []⟩).path.length = 0 ∨
      (parseHeaderLoop headers ⟨"", "", "", "", "", []⟩).authority.length = 0 ∨
      (parseHeaderLoop headers ⟨"", "", "", "", "", []⟩).method.length = 0 := by
    rcases he with h | h | h
    · exact Or.inl (by rw [h]; rfl)
    · exact Or.inr (Or.inl (by rw [h]; rfl))
    · exact Or.inr (Or.inr (by rw [h]; rfl))
  unfold RequestFromHeaders
  simp only [if_neg hm, if_pos hcond]

/-- C4 witness: a list carrying only a GET method has an empty path, and
decoding fails with the PathAuthorityMethodEmpty error. -/
theorem RequestFromHeaders_empty_pseudo_witness :
    RequestFromHeaders [⟨":method", "GET"⟩] = .error .pathAuthorityMethodEmpty :=
  RequestFromHeaders_empty_pseudo [⟨":method", "GET"⟩] (by decide)
    (Or.inl (by decide))

/-- C4 counterexample: a CONNECT request with empty :path and :authority is
decoded successfully - the mandatory-pseudo-header check is skipped on the
CONNECT branch, so no PathAuthorityMethodEmpty error is raised. -/
theorem RequestFromHeaders_connect_counterexample :
    RequestFromHeaders [⟨":method", "CONNECT"⟩] =
      .ok (⟨"CONNECT", ⟨"https", "", ""⟩, [], 0, "", ""⟩, "h3") := rfl

/-- C5: settings round-trip with duplicate rejection and size refusal.
First, decoding the frame produced by ToFrame into an empty map returns
exactly the pairs of the map, in order, with no error, for every map whose
ids and values are in varint range (Go panics outside it), whose keys are
unique (as Go map keys are) and whose encoded size fits in 8 KiB.  Second,
a frame within the size bound whose payload repeats a setting id fails with
the duplicate-setting error.  Third, any frame whose Length field exceeds
8192 bytes is refused. -/
theorem SettingsMap_roundtrip_duplicate_size :
    (∀ m : SettingsMap,
      (∀ q ∈ m, q.1 < 4611686018427387904 ∧ q.2 < 4611686018427387904) →
      (m.map Prod.fst).Nodup →
      settingsEncodedLen m ≤ 8192 →
      SettingsMap.FromFrame [] (SettingsMap.ToFrame m) = (m, none)) ∧
    (∀ (good : SettingsMap) (id val L : Nat) (more : List Nat),
      (∀ q ∈ good, q.1 < 4611686018427387904 ∧ q.2 < 4611686018427387904) →
      (good.map Prod.fst).Nodup →
      id < 4611686018427387904 → val < 4611686018427387904 →
      id ∈ good.map Prod.fst →
      L ≤ 8192 →
      SettingsMap.FromFrame []
          ⟨FRAME_SETTINGS, 0, L,
            encodePairs good ++ (varintAppend id ++ (varintAppend val ++ more))⟩ =
        (good, some (.duplicateSetting id))) ∧
    (∀ (s : SettingsMap) (f : Frame), f.length > 8192 →
      SettingsMap.FromFrame s f = (s, some .tooLarge)) := by
  refine ⟨?_, ?_, ?_⟩
  · intro m hr hn hsize
    unfold SettingsMap.FromFrame SettingsMap.ToFrame
    rw [if_neg (show ¬ settingsEncodedLen m > 8 * 1024 by omega)]
    simpa using settingsLoop_encodePairs m [] hr (fun q hq => rfl) hn
  · intro good id val L more hr hn hid hval hmem hL
    change (if L > 8 * 1024 then (([] : SettingsMap), some SettingsError.tooLarge)
      else settingsLoop []
        (encodePairs good ++ (varintAppend id ++ (varintAppend val ++ more)))) = _
    rw [if_neg (show ¬ L > 8 * 1024 by omega)]
    simpa using settingsLoop_dup good [] id val more hr (fun q hq => rfl) hn
      hid hval (Or.inr hmem)
  · intro s f h
    unfold SettingsMap.FromFrame
    rw [if_pos (show f.length > 8 * 1024 by omega)]

/-- C5 witness: the map with MAX_FIELD_SECTION_SIZE 16384 and
QPACK_BLOCKED_STREAMS 100 round-trips; a payload repeating id 2 is
rejected as a duplicate with the first pair retained; Length 9000 is
refused. -/
theorem SettingsMap_roundtrip_duplicate_size_witness :
    SettingsMap.FromFrame [] (SettingsMap.ToFrame [(6, 16384), (7, 100)]) =
      ([(6, 16384), (7, 100)], none) ∧
    SettingsMap.FromFrame []
        ⟨FRAME_SETTINGS, 0, 4,
          encodePairs [(2, 7)] ++ (varintAppend 2 ++ (varintAppend 9 ++ []))⟩ =
      ([(2, 7)], some (.duplicateSetting 2)) ∧
    SettingsMap.FromFrame [] ⟨FRAME_SETTINGS, 0, 9000, []⟩ = ([], some .tooLarge) :=
  ⟨SettingsMap_roundtrip_duplicate_size.1 [(6, 16384), (7, 100)]
      (by decide) (by decide) (by decide),
   SettingsMap_roundtrip_duplicate_size.2.1 [(2, 7)] 2 9 4 []
      (by decide) (by decide) (by decide) (by decide) (by decide) (by decide),
   SettingsMap_roundtrip_duplicate_size.2.2 [] ⟨FRAME_SETTINGS, 0, 9000, []⟩
      (by decide)⟩

/-- C6 (amended): for every frame whose type is not WEBTRANSPORT_STREAM,
whose type and length are in varint range, and whose Length field equals
its Data byte count, writing and reading back yields the same type, length
and payload with the reader positioned after the frame; the SessionID slot
is not on the wire for such frames and keeps the reading receiver's value.
Frames whose Length disagrees with the Data size do not round-trip (see the
counterexample). -/
theorem Frame_Write_Read_roundtrip (f g : Frame) (rest : List Nat)
    (ht : f.type ≠ FRAME_WEBTRANSPORT_STREAM)
    (ht2 : f.type < 4611686018427387904)
    (hl : f.length < 4611686018427387904)
    (hwf : f.length = f.data.length) :
    Frame.Read g (f.Write ++ rest) =
      .ok ({ g with type := f.type, length := f.length, data := f.data }, rest) := by
  have hsplit : f.Write ++ rest =
      varintAppend f.type ++ (varintAppend f.length ++ (f.data ++ rest)) := by
    unfold Frame.Write
    rw [if_neg ht]
    simp [List.append_assoc]
  rw [hsplit]
  exact Frame_Read_nonWT g f.type f.length f.data rest ht2 hl ht hwf.symm

/-- C6 witness: the HEADERS frame of length 2 with payload AA BB
round-trips through Write and Read. -/
theorem Frame_Write_Read_roundtrip_witness :
    Frame.Read ⟨0, 0, 0, []⟩ (Frame.Write ⟨1, 0, 2, [170, 187]⟩ ++ []) =
      .ok (⟨1, 0, 2, [170, 187]⟩, []) :=
  Frame_Write_Read_roundtrip ⟨1, 0, 2, [170, 187]⟩ ⟨0, 0, 0, []⟩ []
    (by decide) (by decide) (by decide) (by decide)

/-- C6 counterexample: the frame with type 1, Length 1 and empty Data is a
frame whose type is not WEBTRANSPORT_STREAM, yet reading back its written
bytes fails with an io error instead of returning the frame, because Write
emits the Length field while Read then finds no payload byte. -/
theorem Frame_roundtrip_length_mismatch_counterexample :
    Frame.Write ⟨1, 0, 1, []⟩ = [1, 1] ∧
    Frame.Read ⟨0, 0, 0, []⟩ (Frame.Write ⟨1, 0, 1, []⟩) = .error .incompleteInput :=
  ⟨rfl, rfl⟩

/-- C7 (amended): for a frame with type WEBTRANSPORT_STREAM, session id s
and empty Data - the shape Frame.Read always produces for this type -
Write emits exactly the type varint followed by the session id varint, and
Read on such input returns session id s, an empty payload and the reader
positioned at the first application byte.  A WEBTRANSPORT_STREAM frame
whose Data field is non-empty additionally emits those bytes (see the
counterexample). -/
theorem Frame_WT_Write_Read (sid len : Nat) (g : Frame) (rest : List Nat)
    (hs : sid < 4611686018427387904) :
    Frame.Write ⟨FRAME_WEBTRANSPORT_STREAM, sid, len, []⟩ =
      varintAppend FRAME_WEBTRANSPORT_STREAM ++ varintAppend sid ∧
    Frame.Read g (varintAppend FRAME_WEBTRANSPORT_STREAM ++ (varintAppend sid ++ rest)) =
      .ok ({ g with
              type := FRAME_WEBTRANSPORT_STREAM
              sessionID := sid
              length := 0
              data := [] }, rest) := by
  constructor
  · unfold Frame.Write
    rw [if_pos rfl]
    simp
  · exact Frame_Read_WT g sid rest hs

/-- C7 witness: session id 5 with one application byte 07 following the
frame. -/
theorem Frame_WT_Write_Read_witness :
    Frame.Write ⟨FRAME_WEBTRANSPORT_STREAM, 5, 0, []⟩ =
      varintAppend FRAME_WEBTRANSPORT_STREAM ++ varintAppend 5 ∧
    Frame.Read ⟨0, 0, 0, []⟩
        (varintAppend FRAME_WEBTRANSPORT_STREAM ++ (varintAppend 5 ++ [7])) =
      .ok (⟨FRAME_WEBTRANSPORT_STREAM, 5, 0, []⟩, [7]) :=
  Frame_WT_Write_Read 5 0 ⟨0, 0, 0, []⟩ [7] (by decide)

/-- C7 counterexample: a frame with type WEBTRANSPORT_STREAM, session id 5
and Data AB is written as 40 41 05 AB - Write appends the Data bytes
unconditionally, so the output is not exactly the two varints the claim
states. -/
theorem Frame_WT_Write_extra_data_counterexample :
    Frame.Write ⟨FRAME_WEBTRANSPORT_STREAM, 5, 0, [171]⟩ = [0x40, 0x41, 5, 171] ∧
    varintAppend FRAME_WEBTRANSPORT_STREAM ++ varintAppend 5 = [0x40, 0x41, 5] ∧
    ([0x40, 0x41, 5, 171] : List Nat) ≠ [0x40, 0x41, 5] :=
  ⟨rfl, rfl, by decide⟩

/-- C8 (amended): from a fresh response writer, every emitted frame
sequence is zero or more informational (1xx) HEADERS frames followed,
optionally, by exactly one non-1xx HEADERS frame and then only DATA frames;
an unlatched WriteHeader with a 1xx status emits its HEADERS frame without
latching, and a latched writer ignores WriteHeader.  Hence at most one
non-1xx HEADERS frame is ever emitted and every DATA frame follows it, but
several HEADERS frames can precede the first DATA frame when 1xx statuses
are written (see the counterexample to the claim as stated). -/
theorem ResponseWriter_trace_shape :
    (∀ ops : List RWOp, ∃ a b,
      ((⟨0, false⟩ : ResponseWriter).runOps ops).2 = a ++ b ∧
      (∀ e ∈ a, e.isInfoHeaders = true) ∧
      (b = [] ∨ ∃ st tail, b = .headersFrame st :: tail ∧ (st < 100 ∨ 200 ≤ st) ∧
        ∀ e ∈ tail, e.isData = true)) ∧
    (∀ (w : ResponseWriter) (st : Int), w.headerWritten = false →
      100 ≤ st → st ≤ 199 →
      w.WriteHeader st = (⟨st, false⟩, [.headersFrame st])) ∧
    (∀ (w : ResponseWriter) (st : Int), w.headerWritten = true →
      w.WriteHeader st = (w, [])) := by
  refine ⟨fun ops => runOps_trace ops ⟨0, false⟩ rfl, ?_, ?_⟩
  · intro w st hw h1 h2
    unfold ResponseWriter.WriteHeader
    rw [if_neg (by simp [hw])]
    have hdec : decide (st < 100 ∨ 200 ≤ st) = false := by
      simp only [decide_eq_false_iff_not]
      omega
    rw [hdec]
  · intro w st hw
    unfold ResponseWriter.WriteHeader
    rw [if_pos hw]

/-- C8 witness: the trace shape at the one-element sequence writing 204; a
fresh writer emits and does not latch on 100; a latched writer ignores a
further WriteHeader. -/
theorem ResponseWriter_trace_shape_witness :
    (∃ a b,
      ((⟨0, false⟩ : ResponseWriter).runOps [.writeHeader 204]).2 = a ++ b ∧
      (∀ e ∈ a, e.isInfoHeaders = true) ∧
      (b = [] ∨ ∃ st tail, b = .headersFrame st :: tail ∧ (st < 100 ∨ 200 ≤ st) ∧
        ∀ e ∈ tail, e.isData = true)) ∧
    ResponseWriter.WriteHeader ⟨0, false⟩ 100 = (⟨100, false⟩, [.headersFrame 100]) ∧
    ResponseWriter.WriteHeader ⟨204, true⟩ 500 = (⟨204, true⟩, []) :=
  ⟨ResponseWriter_trace_shape.1 [.writeHeader 204],
   ResponseWriter_trace_shape.2.1 ⟨0, false⟩ 100 rfl (by decide) (by decide),
   ResponseWriter_trace_shape.2.2 ⟨204, true⟩ 500 rfl⟩

/-- C8 counterexample: the call sequence WriteHeader 100, WriteHeader 200,
Write 01 emits two HEADERS frames before the DATA frame, refuting the claim
that at most one HEADERS frame is emitted before any DATA frame. -/
theorem ResponseWriter_two_headers_counterexample :
    ((⟨0, false⟩ : ResponseWriter).runOps
        [.writeHeader 100, .writeHeader 200, .write [1]]).2 =
      [.headersFrame 100, .headersFrame 200, .dataFrame [1]] ∧
    ¬ headersBeforeFirstData
        ((⟨0, false⟩ : ResponseWriter).runOps
          [.writeHeader 100, .writeHeader 200, .write [1]]).2 ≤ 1 := by
  decide

/-- C9: AcceptStream reads one leading frame with no type and no session id
check: a leading frame of any other type has its declared payload consumed
and the stream is still returned without a type-mismatch error, and a
WEBTRANSPORT_STREAM frame is accepted whatever its session id, with no
comparison against the accepting session's own id (the result does not
depend on the session at all). -/
theorem AcceptStream_no_type_check :
    (∀ (s : Session) (t l : Nat) (payload rest : List Nat),
      t < 4611686018427387904 → l < 4611686018427387904 →
      t ≠ FRAME_WEBTRANSPORT_STREAM → payload.length = l →
      s.AcceptStream (varintAppend t ++ (varintAppend l ++ (payload ++ rest))) =
        .ok (⟨t, 0, l, payload⟩, rest)) ∧
    (∀ (s : Session) (sid : Nat) (rest : List Nat), sid < 4611686018427387904 →
      s.AcceptStream
          (varintAppend FRAME_WEBTRANSPORT_STREAM ++ (varintAppend sid ++ rest)) =
        .ok (⟨FRAME_WEBTRANSPORT_STREAM, sid, 0, []⟩, rest)) := by
  constructor
  · intro s t l payload rest ht hl hne hlen
    exact Frame_Read_nonWT ⟨0, 0, 0, []⟩ t l payload rest ht hl hne hlen
  · intro s sid rest hs
    exact Frame_Read_WT ⟨0, 0, 0, []⟩ sid rest hs

/-- C9 witness: a session with id 0 accepts a DATA-typed leading frame of
length 1 consuming its payload, and accepts a WEBTRANSPORT_STREAM frame
whose session id 99 differs from its own id 0. -/
theorem AcceptStream_no_type_check_witness :
    Session.AcceptStream ⟨0⟩ (varintAppend 0 ++ (varintAppend 1 ++ ([9] ++ [3]))) =
      .ok (⟨0, 0, 1, [9]⟩, [3]) ∧
    Session.AcceptStream ⟨0⟩
        (varintAppend FRAME_WEBTRANSPORT_STREAM ++ (varintAppend 99 ++ [1])) =
      .ok (⟨FRAME_WEBTRANSPORT_STREAM, 99, 0, []⟩, [1]) :=
  ⟨AcceptStream_no_type_check.1 ⟨0⟩ 0 1 [9] [3]
      (by decide) (by decide) (by decide) (by decide),
   AcceptStream_no_type_check.2 ⟨0⟩ 99 [1] (by decide)⟩

/-- C10: FromFrame decodes into the receiver map in place: a setting id
already present in the receiver before the call (or repeated within the
payload) is reported as a duplicate, and every pair decoded before the
failure remains stored in the returned map, which therefore differs from
the receiver on error whenever a pair preceded the duplicate. -/
theorem FromFrame_inplace_duplicate (s good : SettingsMap) (id val L : Nat)
    (more : List Nat)
    (hr : ∀ q ∈ good, q.1 < 4611686018427387904 ∧ q.2 < 4611686018427387904)
    (hd : ∀ q ∈ good, containsKey s q.1 = false)
    (hn : (good.map Prod.fst).Nodup)
    (hid : id < 4611686018427387904) (hval : val < 4611686018427387904)
    (hdup : containsKey s id = true ∨ id ∈ good.map Prod.fst)
    (hL : L ≤ 8192) :
    SettingsMap.FromFrame s
        ⟨FRAME_SETTINGS, 0, L,
          encodePairs good ++ (varintAppend id ++ (varintAppend val ++ more))⟩ =
      (s ++ good, some (.duplicateSetting id)) := by
  change (if L > 8 * 1024 then (s, some SettingsError.tooLarge)
    else settingsLoop s
      (encodePairs good ++ (varintAppend id ++ (varintAppend val ++ more)))) = _
  rw [if_neg (show ¬ L > 8 * 1024 by omega)]
  exact settingsLoop_dup good s id val more hr hd hn hid hval hdup

/-- C10 witness: with the receiver already holding id 1, decoding the pairs
(2, 7) then (1, 9) reports id 1 as a duplicate and keeps the pair (2, 7)
stored, so the map is not left unchanged on error. -/
theorem FromFrame_inplace_duplicate_witness :
    SettingsMap.FromFrame [(1, 5)]
        ⟨FRAME_SETTINGS, 0, 4,
          encodePairs [(2, 7)] ++ (varintAppend 1 ++ (varintAppend 9 ++ []))⟩ =
      ([(1, 5), (2, 7)], some (.duplicateSetting 1)) :=
  FromFrame_inplace_duplicate [(1, 5)] [(2, 7)] 1 9 4 [] (by decide) (by decide)
    (by decide) (by decide) (by decide) (Or.inl (by decide)) (by decide)

end WebTransport
